import Mathlib

/-!
Shallow embedding of the C style/complexity linter (src/main.rs).

The linter parses C files with tree-sitter, flags global variables and
undocumented functions, computes a logical line count per function body
(`count_lines_statement` / `count_lines_compound_statement`), classifies
identifier case styles, discovers includes (`discover_files`), and exits
non-zero when any lint is produced.

Tree-sitter syntax-tree nodes are embedded as inductive types carrying
exactly the fields the linter reads: node kinds become constructors,
`child_by_field_name` accesses become constructor fields, positional
`child(i)` accesses become explicitly positioned fields, and unnamed
token children or node kinds the linter never matches are modelled by
the `other` constructor.  Source text is modelled as the function from
line numbers to line text that `source.lines().nth(row)` realises.
-/

/-- tree_sitter::Range: rows/columns/byte offsets of a node. -/
structure Range where
  startRow : Nat
  startCol : Nat
  endRow : Nat
  endCol : Nat
  startByte : Nat
  endByte : Nat
deriving DecidableEq, Repr

/-- The `Lint` struct of src/main.rs: `{message, text, range, file, sublints}`.

`value` is a ghost field: for the counter's sub-findings it records the
numeric contribution that the Rust code interpolates into `message`
(`format!("Counted ... for {value} line...")`); for lints whose message
interpolates no count it is 0.  It makes the itemized count explicit so
the additivity invariant can be stated without parsing `message`. -/
inductive Lint where
  | mk (message : String) (text : String) (range : Range) (file : String)
       (sublints : Option (List Lint)) (value : Nat)

/-- Field accessor for `Lint.message`. -/
def Lint.message : Lint → String
  | .mk m _ _ _ _ _ => m

/-- Field accessor for `Lint.text`. -/
def Lint.text : Lint → String
  | .mk _ t _ _ _ _ => t

/-- Field accessor for `Lint.range`. -/
def Lint.range : Lint → Range
  | .mk _ _ r _ _ _ => r

/-- Field accessor for `Lint.file`. -/
def Lint.file : Lint → String
  | .mk _ _ _ f _ _ => f

/-- Field accessor for `Lint.sublints`. -/
def Lint.sublints : Lint → Option (List Lint)
  | .mk _ _ _ _ s _ => s

/-- Field accessor for the ghost `Lint.value`. -/
def Lint.value : Lint → Nat
  | .mk _ _ _ _ _ v => v

/-- Statement-level syntax-tree nodes, as read by `count_lines_statement`.

Each constructor mirrors one `node.kind()` string the Rust match
dispatches on; fields mirror exactly the child accesses the branch
performs.  `caseStmt` stores the last child (`node.child(child_count - 1)`)
separately from the earlier children, since the code dispatches on it;
a real `case_statement` node always has at least its keyword child, so
the last child always exists.  Token children (`{`, `}`, `case`, `:`,
`#endif`, ...) and any node kind the match does not recognize are
`other`. -/
inductive Stmt where
  /-- kind "declaration"; `declarator` is `child_by_field_name("declarator")`
      as (kind, range). -/
  | declaration (declarator : Option (String × Range))
  /-- kind "if_statement": condition range, consequence, optional
      alternative (an `else_clause` node). -/
  | ifStmt (condRange : Range) (consequence : Stmt) (alternative : Option Stmt)
  /-- kind "else_clause"; `child1` is `node.child(1)` (the statement after
      the `else` token). -/
  | elseClause (child1 : Stmt)
  /-- kind "preproc_ifdef": `name` is the text of the guard identifier,
      `children` is the full child list (directive token, name identifier,
      body nodes, `#endif` token). -/
  | ifdefStmt (name : String) (children : List Stmt)
  /-- kind "while_statement". -/
  | whileStmt (condRange : Range) (body : Stmt)
  /-- kind "do_statement". -/
  | doStmt (body : Stmt) (condRange : Range)
  /-- kind "for_statement": `firstRange` is `child(0).range()` (the `for`
      token), `penultimateRange` is `child(child_count - 2).range()` (the
      closing parenthesis), `body` is `child(child_count - 1)`. -/
  | forStmt (firstRange : Range) (penultimateRange : Range) (body : Stmt)
  /-- kind "switch_statement". -/
  | switchStmt (condRange : Range) (body : Stmt)
  /-- kind "expression_statement"; `exprRange` is `child(0).range()`. -/
  | exprStmt (exprRange : Range)
  /-- kind "case_statement": children are `front ++ [lastChild]`. -/
  | caseStmt (front : List Stmt) (lastChild : Stmt)
  /-- kind "break_statement". -/
  | breakStmt (rng : Range)
  /-- kind "continue_statement". -/
  | continueStmt (rng : Range)
  /-- kind "return_statement"; `child1Range` is `child(1).range()` (the
      returned expression, or the `;` token of a bare return). -/
  | returnStmt (child1Range : Range)
  /-- kind "compound_statement"; `children` is the full child list
      (including brace tokens, modelled as `other`). -/
  | compound (children : List Stmt)
  /-- any other node kind (including unnamed token children): falls into
      the `_ => {}` arm of the match. -/
  | other

/-- The `node.kind() != "break_statement"` test of the case-statement
branch. -/
def Stmt.isBreakStmt : Stmt → Bool
  | .breakStmt _ => true
  | _ => false

/-- The `kind() == "compound_statement"` test of the case-statement
branch. -/
def Stmt.isCompoundStmt : Stmt → Bool
  | .compound _ => true
  | _ => false

/-- Sequencing of two `(linecount, sublints)` results: the counts add and
the sub-findings concatenate, in the order the Rust code pushes them. -/
def addCounts (a b : Nat × List Lint) : Nat × List Lint :=
  (a.1 + b.1, a.2 ++ b.2)

mutual

/-- `count_lines_statement(file, source, node, sublints)` of src/main.rs,
returning the added linecount together with the sub-findings pushed,
in push order.  `src` is the line-indexed source text
(`source.lines().nth(row)`).  The `if_statement` branch inlines the
source's `count_lines_if_statement` helper. -/
def count_lines_statement (file : String) (src : Nat → String) : Stmt → Nat × List Lint
  | .declaration declarator =>
    match declarator with
    | some (k, range) =>
      if k = "init_declarator" then
        let value := range.endRow - range.startRow + 1
        (value,
         [Lint.mk ("Counted definition for " ++ toString value ++ " line"
                     ++ (if value ≠ 1 then "s" else ""))
                  (src range.startRow) range file none value])
      else (0, [])
    | none => (0, [])
  | .ifStmt condRange consequence alternative =>
    -- count_lines_if_statement in the source
    let value := condRange.endRow - condRange.startRow + 1
    let condLint := Lint.mk ("Counted if condition for " ++ toString value ++ " line"
                               ++ (if value ≠ 1 then "s" else ""))
                            (src condRange.startRow) condRange file none value
    let cons := count_lines_statement file src consequence
    let alt :=
      match alternative with
      | some a => count_lines_statement file src a
      | none => (0, [])
    addCounts (value, [condLint]) (addCounts cons alt)
  | .elseClause child1 =>
    count_lines_statement file src child1
  | .ifdefStmt name children =>
    if name = "DEBUG" then (0, [])
    else
      -- children(...).skip(2): the directive token and the name identifier
      match children with
      | _ :: _ :: rest => count_lines_list file src rest
      | _ => (0, [])
  | .whileStmt condRange body =>
    let value := condRange.endRow - condRange.startRow + 1
    let condLint := Lint.mk ("Counted while condition for " ++ toString value ++ " line"
                               ++ (if value ≠ 1 then "s" else ""))
                            (src condRange.startRow) condRange file none value
    addCounts (value, [condLint]) (count_lines_statement file src body)
  | .doStmt body condRange =>
    let value := condRange.endRow - condRange.startRow + 1
    let condLint := Lint.mk ("Counted do/while condition for " ++ toString value ++ " line"
                               ++ (if value ≠ 1 then "s" else ""))
                            (src condRange.startRow) condRange file none value
    addCounts (count_lines_statement file src body) (value, [condLint])
  | .forStmt firstRange penultimateRange body =>
    let value := penultimateRange.endRow - firstRange.startRow + 1
    let headerLint := Lint.mk ("Counted for condition for " ++ toString value ++ " line"
                                 ++ (if value ≠ 1 then "s" else ""))
                              (src firstRange.startRow) firstRange file none value
    addCounts (value, [headerLint]) (count_lines_statement file src body)
  | .switchStmt condRange body =>
    let value := condRange.endRow - condRange.startRow + 1
    let condLint := Lint.mk ("Counted switch expression for " ++ toString value ++ " line"
                               ++ (if value ≠ 1 then "s" else ""))
                            (src condRange.startRow) condRange file none value
    addCounts (value, [condLint]) (count_lines_statement file src body)
  | .exprStmt exprRange =>
    let value := exprRange.endRow - exprRange.startRow + 1
    (value,
     [Lint.mk ("Counted expression for " ++ toString value ++ " line"
                 ++ (if value ≠ 1 then "s" else ""))
              (src exprRange.startRow) exprRange file none value])
  | .caseStmt front lastChild =>
    -- expression = node.child(child_count - 1); if it is a compound
    -- statement only its children are counted, otherwise all of the case
    -- node's children (front ++ [lastChild]) are; break_statement
    -- children are skipped either way.
    match lastChild with
    | .compound cs => count_lines_case_children file src cs
    | s =>
      if s.isBreakStmt then count_lines_case_children file src front
      else addCounts (count_lines_case_children file src front)
                     (count_lines_statement file src s)
  | .breakStmt rng =>
    (1, [Lint.mk "Counted break statement for 1 line" (src rng.startRow) rng file none 1])
  | .continueStmt rng =>
    (1, [Lint.mk "Counted continue statement for 1 line" (src rng.startRow) rng file none 1])
  | .returnStmt child1Range =>
    (1, [Lint.mk "Counted return statement for 1 line"
                 (src child1Range.startRow) child1Range file none 1])
  | .compound children =>
    -- count_lines_compound_statement iterates the node's children
    count_lines_list file src children
  | .other => (0, [])

/-- The child-iteration loop shared by `count_lines_compound_statement`
and the `preproc_ifdef` branch: sum `count_lines_statement` over a child
list. -/
def count_lines_list (file : String) (src : Nat → String) : List Stmt → Nat × List Lint
  | [] => (0, [])
  | s :: rest => addCounts (count_lines_statement file src s) (count_lines_list file src rest)

/-- The `count` closure of the case-statement branch: iterate children,
skipping every `break_statement`. -/
def count_lines_case_children (file : String) (src : Nat → String) : List Stmt → Nat × List Lint
  | [] => (0, [])
  | s :: rest =>
    if s.isBreakStmt then count_lines_case_children file src rest
    else addCounts (count_lines_statement file src s) (count_lines_case_children file src rest)

end

/-- `count_lines_compound_statement(file, source, node, sublints)`:
iterates the compound node's children (here the child list itself). -/
def count_lines_compound_statement (file : String) (src : Nat → String)
    (children : List Stmt) : Nat × List Lint :=
  count_lines_list file src children

/-! ### Branch equations of the counter

One propositional equation per match arm of `count_lines_statement`,
used to unfold the counter in proofs. -/

theorem count_decl_none (file : String) (src : Nat → String) :
    count_lines_statement file src (.declaration none) = (0, []) := rfl

theorem count_decl_some (file : String) (src : Nat → String) (k : String) (range : Range) :
    count_lines_statement file src (.declaration (some (k, range)))
      = if k = "init_declarator" then
          (range.endRow - range.startRow + 1,
           [Lint.mk ("Counted definition for " ++ toString (range.endRow - range.startRow + 1)
                       ++ " line" ++ (if range.endRow - range.startRow + 1 ≠ 1 then "s" else ""))
                    (src range.startRow) range file none (range.endRow - range.startRow + 1)])
        else (0, []) := rfl

theorem count_if_none (file : String) (src : Nat → String) (cond : Range) (cons : Stmt) :
    count_lines_statement file src (.ifStmt cond cons none)
      = addCounts (cond.endRow - cond.startRow + 1,
          [Lint.mk ("Counted if condition for " ++ toString (cond.endRow - cond.startRow + 1)
                      ++ " line" ++ (if cond.endRow - cond.startRow + 1 ≠ 1 then "s" else ""))
                   (src cond.startRow) cond file none (cond.endRow - cond.startRow + 1)])
          (addCounts (count_lines_statement file src cons) (0, [])) := rfl

theorem count_if_some (file : String) (src : Nat → String) (cond : Range) (cons a : Stmt) :
    count_lines_statement file src (.ifStmt cond cons (some a))
      = addCounts (cond.endRow - cond.startRow + 1,
          [Lint.mk ("Counted if condition for " ++ toString (cond.endRow - cond.startRow + 1)
                      ++ " line" ++ (if cond.endRow - cond.startRow + 1 ≠ 1 then "s" else ""))
                   (src cond.startRow) cond file none (cond.endRow - cond.startRow + 1)])
          (addCounts (count_lines_statement file src cons)
                     (count_lines_statement file src a)) := rfl

theorem count_else (file : String) (src : Nat → String) (child1 : Stmt) :
    count_lines_statement file src (.elseClause child1)
      = count_lines_statement file src child1 := rfl

theorem count_ifdef_debug (file : String) (src : Nat → String) (children : List Stmt) :
    count_lines_statement file src (.ifdefStmt "DEBUG" children) = (0, []) := rfl

theorem count_ifdef_nondebug (file : String) (src : Nat → String) (name : String)
    (children : List Stmt) (h : name ≠ "DEBUG") :
    count_lines_statement file src (.ifdefStmt name children)
      = count_lines_list file src (children.drop 2) := by
  cases children with
  | nil => rw [count_lines_statement.eq_def]; simp [h, count_lines_list]
  | cons x t =>
    cases t with
    | nil => rw [count_lines_statement.eq_def]; simp [h, count_lines_list]
    | cons y rest => rw [count_lines_statement.eq_def]; simp [h]

theorem count_while (file : String) (src : Nat → String) (cond : Range) (body : Stmt) :
    count_lines_statement file src (.whileStmt cond body)
      = addCounts (cond.endRow - cond.startRow + 1,
          [Lint.mk ("Counted while condition for " ++ toString (cond.endRow - cond.startRow + 1)
                      ++ " line" ++ (if cond.endRow - cond.startRow + 1 ≠ 1 then "s" else ""))
                   (src cond.startRow) cond file none (cond.endRow - cond.startRow + 1)])
          (count_lines_statement file src body) := rfl

theorem count_do (file : String) (src : Nat → String) (body : Stmt) (cond : Range) :
    count_lines_statement file src (.doStmt body cond)
      = addCounts (count_lines_statement file src body)
          (cond.endRow - cond.startRow + 1,
           [Lint.mk ("Counted do/while condition for " ++ toString (cond.endRow - cond.startRow + 1)
                       ++ " line" ++ (if cond.endRow - cond.startRow + 1 ≠ 1 then "s" else ""))
                    (src cond.startRow) cond file none (cond.endRow - cond.startRow + 1)]) := rfl

theorem count_for (file : String) (src : Nat → String) (first penultimate : Range) (body : Stmt) :
    count_lines_statement file src (.forStmt first penultimate body)
      = addCounts (penultimate.endRow - first.startRow + 1,
          [Lint.mk ("Counted for condition for " ++ toString (penultimate.endRow - first.startRow + 1)
                      ++ " line" ++ (if penultimate.endRow - first.startRow + 1 ≠ 1 then "s" else ""))
                   (src first.startRow) first file none (penultimate.endRow - first.startRow + 1)])
          (count_lines_statement file src body) := rfl

theorem count_switch (file : String) (src : Nat → String) (cond : Range) (body : Stmt) :
    count_lines_statement file src (.switchStmt cond body)
      = addCounts (cond.endRow - cond.startRow + 1,
          [Lint.mk ("Counted switch expression for " ++ toString (cond.endRow - cond.startRow + 1)
                      ++ " line" ++ (if cond.endRow - cond.startRow + 1 ≠ 1 then "s" else ""))
                   (src cond.startRow) cond file none (cond.endRow - cond.startRow + 1)])
          (count_lines_statement file src body) := rfl

theorem count_expr (file : String) (src : Nat → String) (rng : Range) :
    count_lines_statement file src (.exprStmt rng)
      = (rng.endRow - rng.startRow + 1,
         [Lint.mk ("Counted expression for " ++ toString (rng.endRow - rng.startRow + 1)
                     ++ " line" ++ (if rng.endRow - rng.startRow + 1 ≠ 1 then "s" else ""))
                  (src rng.startRow) rng file none (rng.endRow - rng.startRow + 1)]) := rfl

theorem count_case_compound (file : String) (src : Nat → String) (front cs : List Stmt) :
    count_lines_statement file src (.caseStmt front (.compound cs))
      = count_lines_case_children file src cs := rfl

theorem count_case_break_last (file : String) (src : Nat → String) (front : List Stmt)
    (rng : Range) :
    count_lines_statement file src (.caseStmt front (.breakStmt rng))
      = count_lines_case_children file src front := rfl

theorem count_case_other_last (file : String) (src : Nat → String) (front : List Stmt)
    (lc : Stmt) (h1 : lc.isCompoundStmt = false) (h2 : lc.isBreakStmt = false) :
    count_lines_statement file src (.caseStmt front lc)
      = addCounts (count_lines_case_children file src front)
                  (count_lines_statement file src lc) := by
  cases lc <;> first
    | rfl
    | (simp [Stmt.isBreakStmt] at h2; done)
    | (simp [Stmt.isCompoundStmt] at h1; done)

theorem count_break (file : String) (src : Nat → String) (rng : Range) :
    count_lines_statement file src (.breakStmt rng)
      = (1, [Lint.mk "Counted break statement for 1 line" (src rng.startRow) rng file none 1]) :=
  rfl

theorem count_continue (file : String) (src : Nat → String) (rng : Range) :
    count_lines_statement file src (.continueStmt rng)
      = (1, [Lint.mk "Counted continue statement for 1 line" (src rng.startRow) rng file none 1]) :=
  rfl

theorem count_return (file : String) (src : Nat → String) (rng : Range) :
    count_lines_statement file src (.returnStmt rng)
      = (1, [Lint.mk "Counted return statement for 1 line" (src rng.startRow) rng file none 1]) :=
  rfl

theorem count_compound_children (file : String) (src : Nat → String) (children : List Stmt) :
    count_lines_statement file src (.compound children)
      = count_lines_list file src children := rfl

theorem count_other (file : String) (src : Nat → String) :
    count_lines_statement file src .other = (0, []) := rfl

theorem count_list_nil (file : String) (src : Nat → String) :
    count_lines_list file src [] = (0, []) := rfl

theorem count_list_cons (file : String) (src : Nat → String) (s : Stmt) (rest : List Stmt) :
    count_lines_list file src (s :: rest)
      = addCounts (count_lines_statement file src s) (count_lines_list file src rest) := rfl

theorem count_case_children_nil (file : String) (src : Nat → String) :
    count_lines_case_children file src [] = (0, []) := rfl

theorem count_case_children_cons (file : String) (src : Nat → String) (s : Stmt)
    (rest : List Stmt) :
    count_lines_case_children file src (s :: rest)
      = if s.isBreakStmt then count_lines_case_children file src rest
        else addCounts (count_lines_statement file src s)
               (count_lines_case_children file src rest) := rfl

/-! ### Additivity of the counter (C3) -/

/-- Sum of the ghost `value` fields of a list of sub-findings: the total
of the itemized contributions. -/
def valueSum (lints : List Lint) : Nat := lints.foldr (fun l acc => l.value + acc) 0

theorem valueSum_cons (x : Lint) (l : List Lint) :
    valueSum (x :: l) = x.value + valueSum l := rfl

theorem valueSum_append (a b : List Lint) :
    valueSum (a ++ b) = valueSum a + valueSum b := by
  induction a with
  | nil => simp [valueSum]
  | cons x xs ih => simp only [List.cons_append, valueSum_cons, ih]; omega

theorem valueSum_addCounts {a b : Nat × List Lint}
    (ha : a.1 = valueSum a.2) (hb : b.1 = valueSum b.2) :
    (addCounts a b).1 = valueSum (addCounts a b).2 := by
  simp [addCounts, valueSum_append, ha, hb]

theorem count_additivity_aux (file : String) (src : Nat → String) :
    ∀ n : Nat,
      (∀ s : Stmt, sizeOf s ≤ n →
        (count_lines_statement file src s).1 = valueSum (count_lines_statement file src s).2) ∧
      (∀ cs : List Stmt, sizeOf cs ≤ n →
        (count_lines_list file src cs).1 = valueSum (count_lines_list file src cs).2 ∧
        (count_lines_case_children file src cs).1
          = valueSum (count_lines_case_children file src cs).2) := by
  intro n
  induction n using Nat.strong_induction_on with
  | _ n ih =>
    have ihS : ∀ s : Stmt, sizeOf s < n →
        (count_lines_statement file src s).1 = valueSum (count_lines_statement file src s).2 :=
      fun s h => (ih (sizeOf s) h).1 s le_rfl
    have ihL : ∀ cs : List Stmt, sizeOf cs < n →
        (count_lines_list file src cs).1 = valueSum (count_lines_list file src cs).2 ∧
        (count_lines_case_children file src cs).1
          = valueSum (count_lines_case_children file src cs).2 :=
      fun cs h => (ih (sizeOf cs) h).2 cs le_rfl
    constructor
    · intro s hs
      cases s with
      | declaration declarator =>
        cases declarator with
        | none => rw [count_decl_none]; simp [valueSum]
        | some p =>
          obtain ⟨k, range⟩ := p
          rw [count_decl_some]
          by_cases hk : k = "init_declarator" <;> simp [hk, valueSum, Lint.value]
      | ifStmt condRange consequence alternative =>
        simp only [Stmt.ifStmt.sizeOf_spec] at hs
        cases alternative with
        | none =>
          rw [count_if_none]
          exact valueSum_addCounts (by simp [valueSum, Lint.value])
            (valueSum_addCounts (ihS consequence (by omega)) (by simp [valueSum]))
        | some a =>
          simp only [Option.some.sizeOf_spec] at hs
          rw [count_if_some]
          exact valueSum_addCounts (by simp [valueSum, Lint.value])
            (valueSum_addCounts (ihS consequence (by omega)) (ihS a (by omega)))
      | elseClause child1 =>
        simp only [Stmt.elseClause.sizeOf_spec] at hs
        rw [count_else]
        exact ihS child1 (by omega)
      | ifdefStmt name children =>
        simp only [Stmt.ifdefStmt.sizeOf_spec] at hs
        by_cases hn : name = "DEBUG"
        · subst hn; rw [count_ifdef_debug]; simp [valueSum]
        · rw [count_ifdef_nondebug file src name children hn]
          cases children with
          | nil => simp [count_list_nil, valueSum]
          | cons x t =>
            cases t with
            | nil => simp [count_list_nil, valueSum]
            | cons y rest =>
              simp only [List.cons.sizeOf_spec] at hs
              simpa using (ihL rest (by omega)).1
      | whileStmt condRange body =>
        simp only [Stmt.whileStmt.sizeOf_spec] at hs
        rw [count_while]
        exact valueSum_addCounts (by simp [valueSum, Lint.value]) (ihS body (by omega))
      | doStmt body condRange =>
        simp only [Stmt.doStmt.sizeOf_spec] at hs
        rw [count_do]
        exact valueSum_addCounts (ihS body (by omega)) (by simp [valueSum, Lint.value])
      | forStmt firstRange penultimateRange body =>
        simp only [Stmt.forStmt.sizeOf_spec] at hs
        rw [count_for]
        exact valueSum_addCounts (by simp [valueSum, Lint.value]) (ihS body (by omega))
      | switchStmt condRange body =>
        simp only [Stmt.switchStmt.sizeOf_spec] at hs
        rw [count_switch]
        exact valueSum_addCounts (by simp [valueSum, Lint.value]) (ihS body (by omega))
      | exprStmt exprRange =>
        rw [count_expr]; simp [valueSum, Lint.value]
      | caseStmt front lastChild =>
        simp only [Stmt.caseStmt.sizeOf_spec] at hs
        cases lastChild
        case compound cs =>
          simp only [Stmt.compound.sizeOf_spec] at hs
          rw [count_case_compound]
          exact (ihL cs (by omega)).2
        case breakStmt rng =>
          rw [count_case_break_last]
          exact (ihL front (by omega)).2
        all_goals
          rw [count_case_other_last file src front _ (by rfl) (by rfl)]
          exact valueSum_addCounts ((ihL front (by omega)).2) (ihS _ (by omega))
      | breakStmt rng => rw [count_break]; simp [valueSum, Lint.value]
      | continueStmt rng => rw [count_continue]; simp [valueSum, Lint.value]
      | returnStmt child1Range => rw [count_return]; simp [valueSum, Lint.value]
      | compound children =>
        simp only [Stmt.compound.sizeOf_spec] at hs
        rw [count_compound_children]
        exact (ihL children (by omega)).1
      | other => rw [count_other]; simp [valueSum]
    · intro cs hcs
      cases cs with
      | nil => constructor <;> simp [count_list_nil, count_case_children_nil, valueSum]
      | cons x rest =>
        simp only [List.cons.sizeOf_spec] at hcs
        constructor
        · rw [count_list_cons]
          exact valueSum_addCounts (ihS x (by omega)) ((ihL rest (by omega)).1)
        · rw [count_case_children_cons]
          by_cases hb : x.isBreakStmt
          · simp only [hb, if_true]
            exact (ihL rest (by omega)).2
          · simp only [hb, Bool.false_eq_true, if_false]
            exact valueSum_addCounts (ihS x (by omega)) ((ihL rest (by omega)).2)

/-- C3: for every function body, the aggregate score returned by the
complexity counter equals the sum of the individual line values of the
itemized sub-finding contributions it records, both for a single
statement (`count_lines_statement`) and for a statement list
(`count_lines_compound_statement`). -/
theorem count_lines_additivity (file : String) (src : Nat → String) :
    (∀ s : Stmt, (count_lines_statement file src s).1
        = valueSum (count_lines_statement file src s).2) ∧
    (∀ cs : List Stmt, (count_lines_compound_statement file src cs).1
        = valueSum (count_lines_compound_statement file src cs).2) := by
  constructor
  · intro s
    exact (count_additivity_aux file src (sizeOf s)).1 s le_rfl
  · intro cs
    exact (count_additivity_aux file src (sizeOf cs)).2 cs le_rfl |>.1

/-! ### Unrecognized statement kinds (C4) -/

/-- C4 counterexample: an expression statement (e.g. `foo();`) has a
kind that is not among those listed in the cost table (declaration with
initializer, if, while, do/while, for, switch, case/default, break,
continue, return, compound block, conditional-compilation block), yet
the counter charges it the line-span of its expression - cost 1 here,
not 0. -/
theorem unlisted_kind_zero_cex :
    (count_lines_statement "a.c" (fun _ => "foo();")
      (Stmt.exprStmt ⟨2, 4, 2, 10, 20, 26⟩)).1 ≠ 0 := by decide

/-- C4 (amended): every statement node whose kind the counter's match
does not recognize - not a cost-table kind and also not an expression
statement or an else clause, which the table omits but the code prices -
contributes cost 0 and records no sub-finding. -/
theorem unrecognized_kind_costs_zero (file : String) (src : Nat → String) :
    count_lines_statement file src Stmt.other = (0, []) := rfl

/-! ### Case blocks and trailing breaks (C5) -/

theorem count_case_children_append_fst (file : String) (src : Nat → String)
    (xs : List Stmt) (s : Stmt) :
    (count_lines_case_children file src (xs ++ [s])).1
      = (count_lines_case_children file src xs).1
        + (if s.isBreakStmt then 0 else (count_lines_statement file src s).1) := by
  induction xs with
  | nil =>
    rw [List.nil_append, count_case_children_cons, count_case_children_nil]
    by_cases hb : s.isBreakStmt <;> simp [hb, addCounts, count_case_children_nil]
  | cons x rest ih =>
    rw [List.cons_append, count_case_children_cons, count_case_children_cons]
    by_cases hx : x.isBreakStmt <;> simp [hx, addCounts, ih] <;> omega

/-- The `case 1: { break; } break;` case block: its last child is a
trailing break statement, preceded by a compound block that itself
contains a break. -/
def caseCexCompound : Stmt :=
  Stmt.compound [Stmt.other, Stmt.breakStmt ⟨1, 10, 1, 16, 18, 24⟩, Stmt.other]

/-- C5 counterexample: for the case block `case 1: { break; } break;`
(children: `case` token, `1`, `:`, a compound block containing a break,
and a trailing break), the trailing break makes the last child a
non-compound node, so all of the case's children are counted - including
the compound block, whose inner break now costs 1.  Removing the
trailing `break;` makes the compound block the last child, so only its
children are counted with breaks skipped - score 0.  The two scores
differ, refuting the claim that a trailing `break;` never changes the
score. -/
theorem case_trailing_break_cex :
    (count_lines_statement "a.c" (fun _ => "")
        (Stmt.caseStmt [Stmt.other, Stmt.other, Stmt.other, caseCexCompound]
          (Stmt.breakStmt ⟨1, 18, 1, 24, 26, 32⟩))).1
      ≠ (count_lines_statement "a.c" (fun _ => "")
          (Stmt.caseStmt [Stmt.other, Stmt.other, Stmt.other] caseCexCompound)).1 := by
  decide

/-- C5 (amended): for every case/default block whose last child is not a
compound block, appending a trailing `break;` leaves the score unchanged
(every break child of the case is skipped), and a break or continue
statement outside a case block costs exactly 1. -/
theorem case_trailing_break_amended (file : String) (src : Nat → String)
    (front : List Stmt) (last : Stmt) (r rng : Range)
    (h : last.isCompoundStmt = false) :
    (count_lines_statement file src (.caseStmt (front ++ [last]) (.breakStmt r))).1
      = (count_lines_statement file src (.caseStmt front last)).1
    ∧ (count_lines_statement file src (.breakStmt rng)).1 = 1
    ∧ (count_lines_statement file src (.continueStmt rng)).1 = 1 := by
  refine ⟨?_, by rw [count_break], by rw [count_continue]⟩
  rw [count_case_break_last, count_case_children_append_fst]
  by_cases hb : last.isBreakStmt
  · rw [if_pos hb]
    cases last <;> first
      | (rw [count_case_break_last]; omega)
      | simp [Stmt.isBreakStmt] at hb
  · rw [if_neg hb,
      count_case_other_last file src front last h (by simpa using hb)]
    simp [addCounts]

/-- Witness for the amended C5: concrete case block whose last child is a
return statement. -/
theorem case_trailing_break_amended_witness :
    (count_lines_statement "w.c" (fun _ => "")
        (Stmt.caseStmt ([Stmt.other, Stmt.other, Stmt.other]
            ++ [Stmt.returnStmt ⟨2, 2, 2, 10, 30, 38⟩])
          (Stmt.breakStmt ⟨3, 2, 3, 8, 40, 46⟩))).1
      = (count_lines_statement "w.c" (fun _ => "")
          (Stmt.caseStmt [Stmt.other, Stmt.other, Stmt.other]
            (Stmt.returnStmt ⟨2, 2, 2, 10, 30, 38⟩))).1
    ∧ (count_lines_statement "w.c" (fun _ => "")
        (Stmt.breakStmt ⟨3, 2, 3, 8, 40, 46⟩)).1 = 1
    ∧ (count_lines_statement "w.c" (fun _ => "")
        (Stmt.continueStmt ⟨3, 2, 3, 8, 40, 46⟩)).1 = 1 :=
  case_trailing_break_amended "w.c" (fun _ => "")
    [Stmt.other, Stmt.other, Stmt.other] (Stmt.returnStmt ⟨2, 2, 2, 10, 30, 38⟩)
    ⟨3, 2, 3, 8, 40, 46⟩ ⟨3, 2, 3, 8, 40, 46⟩ rfl

/-! ### Conditional-compilation blocks (C6) -/

/-- C6: a `preproc_ifdef` block guarded by `DEBUG` contributes 0 (and no
sub-findings); one guarded by any other macro contributes the recursive
cost of the children after the directive token and guard identifier (its
body statements, plus the zero-cost `#endif` token), as if the block
were unconditionally present. -/
theorem preproc_ifdef_cost (file : String) (src : Nat → String) (name : String)
    (children : List Stmt) :
    (name = "DEBUG" →
      count_lines_statement file src (.ifdefStmt name children) = (0, []))
    ∧ (name ≠ "DEBUG" →
      count_lines_statement file src (.ifdefStmt name children)
        = count_lines_list file src (children.drop 2)) := by
  constructor
  · intro h; subst h; exact count_ifdef_debug file src children
  · intro h; exact count_ifdef_nondebug file src name children h

/-- Concrete children of a `#ifdef` block: directive token, guard
identifier, one `return x;` body statement, `#endif` token. -/
def ifdefChildrenW : List Stmt :=
  [Stmt.other, Stmt.other, Stmt.returnStmt ⟨3, 2, 3, 9, 28, 35⟩, Stmt.other]

/-- Witness for C6: a `DEBUG`-guarded block counts 0, a `FOO`-guarded one
counts its body. -/
theorem preproc_ifdef_cost_witness :
    count_lines_statement "w.c" (fun _ => "")
        (Stmt.ifdefStmt "DEBUG" ifdefChildrenW) = (0, [])
    ∧ count_lines_statement "w.c" (fun _ => "")
        (Stmt.ifdefStmt "FOO" ifdefChildrenW)
      = count_lines_list "w.c" (fun _ => "") (ifdefChildrenW.drop 2) :=
  ⟨(preproc_ifdef_cost "w.c" (fun _ => "") "DEBUG" ifdefChildrenW).1 rfl,
   (preproc_ifdef_cost "w.c" (fun _ => "") "FOO" ifdefChildrenW).2 (by decide)⟩

/-! ### The per-file lint pass (C2, C10) -/

/-- A `function_definition` node as read by `lint`: its own range
(`node.range()`), the range of `child_by_field_name("declarator")`, and
the children of `child_by_field_name("body")` (a compound statement). -/
structure FunctionDef where
  rng : Range
  declaratorRange : Range
  body : List Stmt

/-- Top-level children of the translation-unit root node, as read by the
loop in `lint`. -/
inductive TopNode where
  /-- kind "declaration": the declarator child's kind and the node
      range. -/
  | decl (declaratorKind : String) (rng : Range)
  /-- kind "function_definition". -/
  | funcDef (fd : FunctionDef)
  /-- kind "comment". -/
  | comment (rng : Range)
  /-- any other top-level node kind. -/
  | otherNode (rng : Range)

/-- The `prev_sibling.kind() == "comment"` test. -/
def TopNode.isComment : TopNode → Bool
  | .comment _ => true
  | _ => false

/-- `range().end_point.row` of a top-level node. -/
def TopNode.endRow : TopNode → Nat
  | .decl _ r => r.endRow
  | .funcDef fd => fd.rng.endRow
  | .comment r => r.endRow
  | .otherNode r => r.endRow

/-- The body of the loop in `lint` (src/main.rs lines 56-115) for one
top-level node, given its previous sibling (`prev`): the lints pushed for
this node, or `none` when the code panics - a `function_definition` with
no previous sibling hits `prev_sibling().expect(...)`.

The comment-adjacency test `node.range().start_point.row - 1 ==
prev_sibling.range().end_point.row` is written without the usize
subtraction as `startRow == endRow + 1`; the two agree except when the
function starts at row 0, where the release-mode wrap-around makes the
Rust comparison false, as here. -/
def lint_top_node (file : String) (src : Nat → String) (prev : Option TopNode) :
    TopNode → Option (List Lint)
  | .decl declaratorKind rng =>
    -- top level declarations are global variables, and disallowed
    some (if declaratorKind = "init_declarator" ∨ declaratorKind = "identifier" then
            [Lint.mk "Global variable" (src rng.startRow) rng file none 0]
          else [])
  | .funcDef fd =>
    match prev with
    | none => none
    | some p =>
      -- function declarations must have comments above them
      let commentLints :=
        if p.isComment && (fd.rng.startRow == p.endRow + 1) then []
        else [Lint.mk "Missing comment directly above function"
                (src fd.declaratorRange.startRow) fd.declaratorRange file none 0]
      let r := count_lines_compound_statement file src fd.body
      let complexityLints :=
        if r.1 > 10 then
          [Lint.mk ("Function has more than 10 lines (" ++ toString r.1 ++ ")")
                   (src fd.declaratorRange.startRow) fd.declaratorRange file (some r.2) r.1]
        else []
      some (commentLints ++ complexityLints)
  | .comment _ => some []
  | .otherNode _ => some []

/-- The loop of `lint` over `root_node.children`, threading each node as
the next node's previous sibling and concatenating the pushed lints;
`none` models a panic aborting the pass. -/
def lint_nodes (file : String) (src : Nat → String) :
    Option TopNode → List TopNode → Option (List Lint)
  | _, [] => some []
  | prev, n :: rest =>
    match lint_top_node file src prev n, lint_nodes file src (some n) rest with
    | some a, some b => some (a ++ b)
    | _, _ => none

/-- `lint(file, source, lints)` of src/main.rs: iterate the root node's
children; the first child has no previous sibling. -/
def lint (file : String) (src : Nat → String) (nodes : List TopNode) : Option (List Lint) :=
  lint_nodes file src none nodes

/-- C2: the finding `Function has more than 10 lines (<score>)`, located
at the function's declarator range and carrying the contribution list as
sub-findings, is produced for a function definition (with a previous
sibling `p`) if and only if the computed logical-line score of its body
exceeds 10. -/
theorem function_over_ten_iff (file : String) (src : Nat → String) (p : TopNode)
    (fd : FunctionDef) :
    (Lint.mk ("Function has more than 10 lines ("
                ++ toString (count_lines_compound_statement file src fd.body).1 ++ ")")
             (src fd.declaratorRange.startRow) fd.declaratorRange file
             (some (count_lines_compound_statement file src fd.body).2)
             (count_lines_compound_statement file src fd.body).1
       ∈ (lint_top_node file src (some p) (.funcDef fd)).getD [])
    ↔ 10 < (count_lines_compound_statement file src fd.body).1 := by
  simp only [lint_top_node, Option.getD_some, List.mem_append]
  by_cases hscore : 10 < (count_lines_compound_statement file src fd.body).1
  · simp [hscore]
  · simp only [gt_iff_lt, hscore, if_false, List.not_mem_nil, or_false, reduceIte,
      iff_false]
    intro hmem
    by_cases hc : p.isComment && (fd.rng.startRow == p.endRow + 1) <;>
      simp [hc, Lint.mk.injEq] at hmem

/-- Witness for C2: an 11-return-statement body scores 11 > 10 and the
finding is present. -/
theorem function_over_ten_iff_witness :
    Lint.mk ("Function has more than 10 lines ("
               ++ toString (count_lines_compound_statement "w.c" (fun _ => "")
                     (List.replicate 11 (Stmt.returnStmt ⟨5, 2, 5, 9, 0, 0⟩))).1 ++ ")")
            ((fun _ : Nat => "") 1) ⟨1, 0, 1, 9, 0, 0⟩ "w.c"
            (some (count_lines_compound_statement "w.c" (fun _ => "")
                (List.replicate 11 (Stmt.returnStmt ⟨5, 2, 5, 9, 0, 0⟩))).2)
            (count_lines_compound_statement "w.c" (fun _ => "")
                (List.replicate 11 (Stmt.returnStmt ⟨5, 2, 5, 9, 0, 0⟩))).1
      ∈ (lint_top_node "w.c" (fun _ => "") (some (TopNode.comment ⟨0, 0, 0, 10, 0, 10⟩))
          (.funcDef ⟨⟨1, 0, 14, 1, 11, 300⟩, ⟨1, 0, 1, 9, 0, 0⟩,
            List.replicate 11 (Stmt.returnStmt ⟨5, 2, 5, 9, 0, 0⟩)⟩)).getD [] :=
  (function_over_ten_iff "w.c" (fun _ => "") (TopNode.comment ⟨0, 0, 0, 10, 0, 10⟩)
      ⟨⟨1, 0, 14, 1, 11, 300⟩, ⟨1, 0, 1, 9, 0, 0⟩,
        List.replicate 11 (Stmt.returnStmt ⟨5, 2, 5, 9, 0, 0⟩)⟩).mpr (by decide)

/-- C10: when the first top-level node of a file is a function
definition (nothing precedes it), the lint pass panics on the missing
previous sibling (modelled as `none`) instead of emitting any finding. -/
theorem lint_first_function_panics (file : String) (src : Nat → String)
    (fd : FunctionDef) (rest : List TopNode) :
    lint file src (.funcDef fd :: rest) = none := by
  simp [lint, lint_nodes, lint_top_node]

/-! ### Include discovery (C1) -/

mutual

/-- `discover_files(path)` of src/main.rs, shallowly embedded.

`fs path` gives the quoted (string-literal) include paths appearing at
the top level of the file at `path`, in source order; angle-bracket
includes are excluded, as the code only follows `string_literal` path
nodes.  `parentDir` models `path.parent().unwrap()` and `join` models
`Path::join`.  The Rust function recurses with no bound; `fuel` bounds
the recursion depth in the embedding and `none` means the computation is
still recursing when the bound runs out, so a result of `none` at every
fuel value means the Rust recursion never returns.  Note the `fileset`
is created afresh on every call, exactly as in the source
(`let mut fileset = HashSet::new(); fileset.insert(path)`). -/
def discover_files (fs : String → List String) (parentDir : String → String)
    (join : String → String → String) : Nat → String → Option (List String)
  | 0, _ => none
  | fuel + 1, path =>
    discover_includes fs parentDir join fuel (parentDir path) [path] (fs path)
termination_by fuel _ => (fuel, 0, 0)

/-- The loop over `preproc_include` nodes inside `discover_files`.
The membership test uses the raw include-path string, while the
accumulated `fileset` holds the starting path and joined paths, as in
`fileset.contains(&PathBuf::from(include_path))`.  On recursion the
results are unioned into the fileset (`fileset.extend(newfiles)`). -/
def discover_includes (fs : String → List String) (parentDir : String → String)
    (join : String → String → String) :
    Nat → String → List String → List String → Option (List String)
  | _, _, fileset, [] => some fileset
  | fuel, parent, fileset, inc :: rest =>
    if fileset.contains inc then
      discover_includes fs parentDir join fuel parent fileset rest
    else
      match discover_files fs parentDir join fuel (join parent inc) with
      | none => none
      | some newfiles =>
        discover_includes fs parentDir join fuel parent
          (fileset ++ newfiles.filter (fun f => !fileset.contains f)) rest
termination_by fuel _ _ includes => (fuel, 1, includes.length)

end

/-- The two-file include cycle: `a.h` includes `"b.h"` and `b.h`
includes `"a.h"`. -/
def fsCycle : String → List String :=
  fun path => if path = "a.h" then ["b.h"] else if path = "b.h" then ["a.h"] else []

/-- `Path::parent` for bare file names in the working directory:
`Path("a.h").parent() = Some("")`. -/
def parentFlat : String → String := fun _ => ""

/-- `Path::join` with an empty base: `Path("").join(p) = p`. -/
def joinFlat : String → String → String :=
  fun parent inc => if parent = "" then inc else parent ++ "/" ++ inc

/-- C1 (the code, evaluated on the failing input): on the two-file
include cycle, `discover_files "a.h"` is still recursing at every
recursion depth - each call starts a fresh fileset, so the
set-membership check never sees files visited by outer calls, the
recursion `a.h -> b.h -> a.h -> ...` never returns, and no
circular-include error is ever reported (no such error exists in the
code). -/
theorem discover_files_cycle_diverges :
    ∀ fuel : Nat, discover_files fsCycle parentFlat joinFlat fuel "a.h" = none := by
  have key : ∀ fuel : Nat,
      discover_files fsCycle parentFlat joinFlat fuel "a.h" = none
      ∧ discover_files fsCycle parentFlat joinFlat fuel "b.h" = none := by
    intro fuel
    induction fuel with
    | zero => exact ⟨by simp [discover_files], by simp [discover_files]⟩
    | succ n ih =>
      constructor
      · rw [discover_files]
        simp [discover_includes, fsCycle, parentFlat, joinFlat, ih.2]
      · rw [discover_files]
        simp [discover_includes, fsCycle, parentFlat, joinFlat, ih.1]
  intro fuel
  exact (key fuel).1

/-! ### Project-wide case-consistency pass (C7) -/

/-- Identifier case classification (`IdentifierCase` in src/main.rs). -/
inductive IdentifierCase where
  | LowerSnake
  | Camel
deriving DecidableEq, Repr

/-- The `Identifier` struct of src/main.rs; its `case` field is named
`idCase` here because `case` is a Lean keyword. -/
structure Identifier where
  file : String
  range : Range
  idCase : IdentifierCase
  text : String
deriving DecidableEq, Repr

/-- The consistency Lint built in `main` for one snake_case
identifier. -/
def mkSnakeLint (identifier : Identifier) : Lint :=
  Lint.mk "Snake case identifier contributes to case inconsistency"
    identifier.text identifier.range identifier.file none 0

/-- The consistency Lint built in `main` for one camelCase
identifier. -/
def mkCamelLint (identifier : Identifier) : Lint :=
  Lint.mk "Camel case identifier contributes to case inconsistency"
    identifier.text identifier.range identifier.file none 0

/-- The project-wide case-consistency pass of `main` (src/main.rs lines
547-582): filter the snake_case and camelCase identifiers; if both lists
are nonempty, append one lint per snake identifier and then one per
camel identifier to the lint list (here: the lints appended). -/
def consistency_lints (identifiers : List Identifier) : List Lint :=
  let snake_case_identifiers :=
    identifiers.filter (fun i => i.idCase == IdentifierCase.LowerSnake)
  let camel_case_identifiers :=
    identifiers.filter (fun i => i.idCase == IdentifierCase.Camel)
  if snake_case_identifiers.length > 0 ∧ camel_case_identifiers.length > 0 then
    snake_case_identifiers.map mkSnakeLint ++ camel_case_identifiers.map mkCamelLint
  else []

theorem snake_camel_partition (identifiers : List Identifier) :
    (identifiers.filter (fun i => i.idCase == IdentifierCase.LowerSnake)).length
      + (identifiers.filter (fun i => i.idCase == IdentifierCase.Camel)).length
      = identifiers.length := by
  induction identifiers with
  | nil => rfl
  | cons i rest ih =>
    cases h : i.idCase <;> simp [List.filter_cons, h, ih] <;> omega

/-- C7: if at least one snake_case and at least one camelCase identifier
occur across the linted set, the pass produces exactly the snake lints
followed by the camel lints - one finding per classified identifier,
labeled with its style - and as many findings as identifiers; if only
one style occurs, it produces no findings. -/
theorem consistency_findings (identifiers : List Identifier) :
    ((identifiers.filter (fun i => i.idCase == IdentifierCase.LowerSnake) ≠ []
        ∧ identifiers.filter (fun i => i.idCase == IdentifierCase.Camel) ≠ []) →
      consistency_lints identifiers
          = (identifiers.filter (fun i => i.idCase == IdentifierCase.LowerSnake)).map mkSnakeLint
            ++ (identifiers.filter (fun i => i.idCase == IdentifierCase.Camel)).map mkCamelLint
        ∧ (consistency_lints identifiers).length = identifiers.length)
    ∧ ((identifiers.filter (fun i => i.idCase == IdentifierCase.LowerSnake) = []
        ∨ identifiers.filter (fun i => i.idCase == IdentifierCase.Camel) = []) →
      consistency_lints identifiers = []) := by
  constructor
  · intro ⟨hs, hc⟩
    have hcond : (identifiers.filter (fun i => i.idCase == IdentifierCase.LowerSnake)).length > 0
        ∧ (identifiers.filter (fun i => i.idCase == IdentifierCase.Camel)).length > 0 :=
      ⟨List.length_pos.mpr hs, List.length_pos.mpr hc⟩
    refine ⟨by simp [consistency_lints, hcond], ?_⟩
    simp only [consistency_lints, hcond, and_self, if_true, reduceIte, List.length_append,
      List.length_map]
    exact snake_camel_partition identifiers
  · intro h
    have hcond : ¬ ((identifiers.filter (fun i => i.idCase == IdentifierCase.LowerSnake)).length > 0
        ∧ (identifiers.filter (fun i => i.idCase == IdentifierCase.Camel)).length > 0) := by
      rcases h with h | h <;> simp [h]
    simp [consistency_lints, hcond]

/-- Witness for C7: one snake identifier and one camel identifier yield
exactly one labeled finding each; total count 2. -/
theorem consistency_findings_witness :
    consistency_lints
        [⟨"w.c", ⟨1, 4, 1, 9, 10, 15⟩, IdentifierCase.LowerSnake, "my_var"⟩,
         ⟨"w.c", ⟨2, 4, 2, 9, 20, 25⟩, IdentifierCase.Camel, "myVar"⟩]
        = ([⟨"w.c", ⟨1, 4, 1, 9, 10, 15⟩, IdentifierCase.LowerSnake, "my_var"⟩,
            ⟨"w.c", ⟨2, 4, 2, 9, 20, 25⟩, IdentifierCase.Camel, "myVar"⟩].filter
              (fun i => i.idCase == IdentifierCase.LowerSnake)).map mkSnakeLint
          ++ ([⟨"w.c", ⟨1, 4, 1, 9, 10, 15⟩, IdentifierCase.LowerSnake, "my_var"⟩,
               ⟨"w.c", ⟨2, 4, 2, 9, 20, 25⟩, IdentifierCase.Camel, "myVar"⟩].filter
                (fun i => i.idCase == IdentifierCase.Camel)).map mkCamelLint
    ∧ (consistency_lints
        [⟨"w.c", ⟨1, 4, 1, 9, 10, 15⟩, IdentifierCase.LowerSnake, "my_var"⟩,
         ⟨"w.c", ⟨2, 4, 2, 9, 20, 25⟩, IdentifierCase.Camel, "myVar"⟩]).length
      = ([⟨"w.c", ⟨1, 4, 1, 9, 10, 15⟩, IdentifierCase.LowerSnake, "my_var"⟩,
          ⟨"w.c", ⟨2, 4, 2, 9, 20, 25⟩, IdentifierCase.Camel, "myVar"⟩] :
            List Identifier).length :=
  (consistency_findings
      [⟨"w.c", ⟨1, 4, 1, 9, 10, 15⟩, IdentifierCase.LowerSnake, "my_var"⟩,
       ⟨"w.c", ⟨2, 4, 2, 9, 20, 25⟩, IdentifierCase.Camel, "myVar"⟩]).1
    (by constructor <;> decide)

/-! ### Exit code (C8) -/

/-- The exit-code selection at the end of `main` (src/main.rs lines
596-598): `std::process::exit(1)` when any lint was produced; otherwise
`main` returns normally and the process exits 0. -/
def exit_code (lints : List Lint) : Nat :=
  if lints.length > 0 then 1 else 0

/-- C8: the process exit code is non-zero if and only if at least one
finding was produced; with zero findings it is zero. -/
theorem exit_code_nonzero_iff (lints : List Lint) :
    (exit_code lints ≠ 0 ↔ lints ≠ []) ∧ (lints = [] → exit_code lints = 0) := by
  constructor
  · cases lints <;> simp [exit_code]
  · intro h; subst h; rfl

/-- Witness for C8: one finding gives a non-zero exit code; none gives
zero. -/
theorem exit_code_nonzero_iff_witness :
    exit_code [Lint.mk "Global variable" "int x = 5;" ⟨0, 0, 0, 10, 0, 10⟩ "w.c" none 0] ≠ 0
    ∧ exit_code [] = 0 :=
  ⟨(exit_code_nonzero_iff
      [Lint.mk "Global variable" "int x = 5;" ⟨0, 0, 0, 10, 0, 10⟩ "w.c" none 0]).1.mpr
      (by simp),
   (exit_code_nonzero_iff []).2 rfl⟩

/-! ### Preprocessor expansion and realignment (C9)

The preprocessing-realignment pipeline (`expand`, `realign`) belongs to
the lineage this specification covers but is not present in src/; the
definitions below are modelled from the spec's words (sections 4.2, 4.3
and 6 of the specification). -/

/-- One line of raw preprocessor output: either a GCC-style line-marker
directive ` <line> "<path>" [flags]` or a text line. -/
inductive RawItem where
  | marker (line : Nat) (path : String)
  | text (s : String)
deriving DecidableEq, Repr

/-- The pseudo-path the preprocessor attributes to source fed on
standard input. -/
def stdinPath : String := "<stdin>"

/-- Modelled from the spec: `expand(source_text, debug_mode)` - the
Preprocessor Bridge - pipes the source text through an external C
preprocessor and captures raw output interleaving expanded source lines
with line-marker directives.  This model covers the case the round-trip
property speaks about: a source with no macros and no includes, for
which expansion is a no-op - the output is the preprocessor's synthetic
prologue (markers for the `<stdin>`, `<built-in>` and `<command-line>`
pseudo-files, which contribute no kept text) followed by a marker
attributing the following segment to line 1 of `<stdin>` and the source
lines verbatim.  `debug_mode` only toggles a predefined `DEBUG` macro,
which cannot affect a macro-free source. -/
def expand (sourceLines : List String) (debugMode : Bool) : List RawItem :=
  [RawItem.marker 1 stdinPath, RawItem.marker 1 "<built-in>",
   RawItem.marker 1 "<command-line>", RawItem.marker 1 stdinPath]
    ++ sourceLines.map RawItem.text

/-- Pad the accumulated virtual text with blank lines until its line
count equals the declared starting line minus one. -/
def padToLine (acc : List String) (line : Nat) : List String :=
  acc ++ List.replicate (line - 1 - acc.length) ""

/-- Modelled from the spec: the realigner's scan over the raw output.
State: whether the current segment is attributed to the stdin
pseudo-file (`keep`) and the original line number the next kept text
line corresponds to (`line`).  A marker for the stdin pseudo-file starts
a kept segment at its declared line; any other marker starts a dropped
segment.  A kept text line is placed at its declared line, padding
skipped lines with blanks. -/
def realignScan : List RawItem → Bool → Nat → List String → List String
  | [], _, _, acc => acc
  | RawItem.marker n p :: rest, _, _, acc =>
    if p = stdinPath then realignScan rest true n acc
    else realignScan rest false n acc
  | RawItem.text s :: rest, keep, line, acc =>
    if keep then realignScan rest keep (line + 1) (padToLine acc line ++ [s])
    else realignScan rest keep line acc

/-- Modelled from the spec: the fixed leading offset to trim,
corresponding to the preprocessor's synthetic prologue.  The prologue
consists only of line-marker directives (for pseudo-files other than the
target segment), which contribute no kept lines, so the offset is zero
lines. -/
def synthetic_prologue_lines : Nat := 0

/-- Modelled from the spec: `realign(raw_output, target_file_name)` -
the Line-Marker Realigner - keeps only segments attributed to the
standard-input pseudo-file (matched exactly and case-sensitively against
`<stdin>`, not against `target_file_name`, which labels findings),
places each kept segment at its declared original line, and trims the
fixed leading offset of the synthetic prologue. -/
def realign (raw : List RawItem) (targetFileName : String) : List String :=
  let _ := targetFileName
  (realignScan raw false 1 []).drop synthetic_prologue_lines

theorem realignScan_text_run (ls : List String) :
    ∀ (acc : List String) (line : Nat), acc.length = line - 1 → 1 ≤ line →
      realignScan (ls.map RawItem.text) true line acc = acc ++ ls := by
  induction ls with
  | nil => intro acc line _ _; simp [realignScan]
  | cons s rest ih =>
    intro acc line hlen hline
    simp only [List.map_cons, realignScan, if_true, reduceIte]
    rw [show padToLine acc line = acc by simp [padToLine, hlen]]
    rw [ih (acc ++ [s]) (line + 1) (by simp [hlen]; omega) (by omega)]
    simp

/-- C9: for a source with no macros and no includes, realigning the
preprocessor expansion reproduces the original text line-for-line
(expansion is a no-op and realignment is lossless). -/
theorem realign_expand_roundtrip (sourceLines : List String) (name : String) :
    realign (expand sourceLines false) name = sourceLines := by
  simp only [realign, expand, synthetic_prologue_lines, List.drop_zero]
  rw [show ([RawItem.marker 1 stdinPath, RawItem.marker 1 "<built-in>",
      RawItem.marker 1 "<command-line>", RawItem.marker 1 stdinPath]
        ++ sourceLines.map RawItem.text)
      = RawItem.marker 1 stdinPath :: RawItem.marker 1 "<built-in>"
        :: RawItem.marker 1 "<command-line>" :: RawItem.marker 1 stdinPath
        :: sourceLines.map RawItem.text from rfl]
  rw [realignScan, if_pos rfl]
  rw [realignScan, if_neg (by simp [stdinPath])]
  rw [realignScan, if_neg (by simp [stdinPath])]
  rw [realignScan, if_pos rfl]
  rw [realignScan_text_run sourceLines [] 1 rfl le_rfl]
  simp
